import Mathlib

/-!
Verification of the malformed-JSON request sanitizer and validation-error
translator of the Entregable3 task API.

The definitions below are a shallow embedding of `src/app/main.py`
(the `json_sanitizer_middleware` class and the
`validation_exception_handler` function) and of
`src/app/models/task_model.py` (the `task` and `task_ai_input` models).
Python strings are modelled as `List Char`, byte strings as `List Nat`
(each element a byte value), and Python's fallible operations as
`Option`-valued functions.
-/

namespace Entregable3

/- ### Generic string helpers (Python `str` operations) -/

/-- Python's regex class `\s` on `str`: exactly the characters CPython's
regex engine treats as whitespace (`Py_UNICODE_ISSPACE`) — U+0009-U+000D,
U+001C-U+0020, NEL, no-break space, Ogham space mark, U+2000-U+200A, the
line and paragraph separators, narrow no-break space, medium mathematical
space, and ideographic space. -/
def isPySpace (c : Char) : Bool :=
  decide ((0x09 ≤ c.toNat ∧ c.toNat ≤ 0x0D) ∨ (0x1C ≤ c.toNat ∧ c.toNat ≤ 0x20)
    ∨ c.toNat = 0x85 ∨ c.toNat = 0xA0 ∨ c.toNat = 0x1680
    ∨ (0x2000 ≤ c.toNat ∧ c.toNat ≤ 0x200A) ∨ (0x2028 ≤ c.toNat ∧ c.toNat ≤ 0x2029)
    ∨ c.toNat = 0x202F ∨ c.toNat = 0x205F ∨ c.toNat = 0x3000)

/-- Boolean prefix test: does the first list occur at the head of the second? -/
def isPrefixB : List Char → List Char → Bool
  | [], _ => true
  | _ :: _, [] => false
  | a :: as, b :: bs => a = b && isPrefixB as bs

/-- Python's substring containment test `pat in s`. -/
def containsB (pat : List Char) : List Char → Bool
  | [] => pat.isEmpty
  | c :: cs => isPrefixB pat (c :: cs) || containsB pat cs

/-- Python's string join `sep.join(xs)`. -/
def joinSep (sep : String) : List String → String
  | [] => ""
  | [x] => x
  | x :: y :: xs => x ++ sep ++ joinSep sep (y :: xs)

/-- Python's `str.lower()` (ASCII portion). -/
def lowerStr (s : String) : String :=
  String.mk (s.data.map Char.toLower)

/- ### Body Sanitizer rewrite rules (src/app/main.py lines 70-71)

`re.sub(r':\s*,', ': null,', body_str)` followed by
`re.sub(r':\s*}', ': null}', sanitized)`.

A position matches the pattern exactly when a colon is followed by a
(possibly empty) run of whitespace and then directly the delimiter:
the regex engine's backtracking over `\s*` can never produce a match the
greedy scan misses, because every character the engine could hand back is
whitespace and hence never equal to the delimiter. -/

/-- After a colon: skip whitespace and, if the delimiter follows, return the
remainder after the delimiter (the matched span ends at the delimiter). -/
def matchAfterColon (delim : Char) : List Char → Option (List Char)
  | [] => none
  | c :: cs =>
    if c = delim then some cs
    else if isPySpace c then matchAfterColon delim cs
    else none

/-- Left-to-right, non-overlapping global substitution of `:\s*<delim>` by
`repl`, with explicit fuel (one unit per character examined). -/
def subColonFuel (delim : Char) (repl : List Char) : Nat → List Char → List Char
  | 0, s => s
  | _ + 1, [] => []
  | fuel + 1, c :: cs =>
    if c = (':') then
      match matchAfterColon delim cs with
      | some rest => repl ++ subColonFuel delim repl fuel rest
      | none => c :: subColonFuel delim repl fuel cs
    else c :: subColonFuel delim repl fuel cs

def subColonDelim (delim : Char) (repl : List Char) (s : List Char) : List Char :=
  subColonFuel delim repl s.length s

/-- The two rewrite rules of the Body Sanitizer, in source order:
first the comma rule, then the closing-brace rule. -/
def sanitizeText (s : List Char) : List Char :=
  subColonDelim ('\x7d') ((": null\x7d").data) (subColonDelim (',') ((": null,").data) s)

/-- Does the text contain any occurrence of colon, optional whitespace,
then the delimiter? (Matches exactly where `re.sub` would rewrite.) -/
def hasCD (delim : Char) : List Char → Bool
  | [] => false
  | c :: cs => (if c = (':') then (matchAfterColon delim cs).isSome else false) || hasCD delim cs

/- ### JSON values and a reference parser

The claims compare request bodies up to JSON semantics.  `Json` is the
value tree; `parseJson` is a standard recursive-descent parser used as
the comparison standard (number tokens are kept as literal text and
string escape sequences are kept verbatim, which is enough to decide
semantic difference on the concrete bodies appearing in the claims). -/

inductive Json where
  | null : Json
  | jbool (b : Bool) : Json
  | num (tok : List Char) : Json
  | str (s : List Char) : Json
  | arr (elems : List Json) : Json
  | obj (members : List (String × Json)) : Json

def isJsonWs (c : Char) : Bool :=
  c = (' ') || c = ('\t') || c = ('\n') || c = ('\r')

def skipWs (s : List Char) : List Char := s.dropWhile isJsonWs

def numChar (c : Char) : Bool :=
  c.isDigit || c = ('-') || c = ('+') || c = ('.') || c = ('e') || c = ('E')

/-- Body of a JSON string after the opening quote: returns the content and
the remainder after the closing quote; a backslash keeps the escape pair
verbatim. -/
def parseStringBody : Nat → List Char → Option (List Char × List Char)
  | 0, _ => none
  | _ + 1, [] => none
  | fuel + 1, c :: cs =>
    if c = ('"') then some ([], cs)
    else if c = ('\\') then
      match cs with
      | [] => none
      | e :: cs' =>
        match parseStringBody fuel cs' with
        | some (content, rest) => some (c :: e :: content, rest)
        | none => none
    else
      match parseStringBody fuel cs with
      | some (content, rest) => some (c :: content, rest)
      | none => none

mutual

def parseVal : Nat → List Char → Option (Json × List Char)
  | 0, _ => none
  | fuel + 1, s =>
    match skipWs s with
    | [] => none
    | c :: cs =>
      if c = ('"') then
        match parseStringBody cs.length cs with
        | some (content, rest) => some (Json.str content, rest)
        | none => none
      else if c = ('\x7b') then
        match skipWs cs with
        | '\x7d' :: rest => some (Json.obj [], rest)
        | other =>
          match parseMembers fuel other with
          | some (members, rest) => some (Json.obj members, rest)
          | none => none
      else if c = ('[') then
        match skipWs cs with
        | ']' :: rest => some (Json.arr [], rest)
        | other =>
          match parseElems fuel other with
          | some (elems, rest) => some (Json.arr elems, rest)
          | none => none
      else if isPrefixB (("null").data) (c :: cs) then some (Json.null, cs.drop 3)
      else if isPrefixB (("true").data) (c :: cs) then some (Json.jbool true, cs.drop 3)
      else if isPrefixB (("false").data) (c :: cs) then some (Json.jbool false, cs.drop 4)
      else if c.isDigit || c = ('-') then
        some (Json.num ((c :: cs).takeWhile numChar), (c :: cs).drop ((c :: cs).takeWhile numChar).length)
      else none

def parseMembers : Nat → List Char → Option (List (String × Json) × List Char)
  | 0, _ => none
  | fuel + 1, s =>
    match skipWs s with
    | '"' :: cs =>
      match parseStringBody cs.length cs with
      | some (key, rest1) =>
        match skipWs rest1 with
        | ':' :: rest2 =>
          match parseVal fuel rest2 with
          | some (v, rest3) =>
            match skipWs rest3 with
            | ',' :: rest4 =>
              match parseMembers fuel rest4 with
              | some (members, rest5) => some ((String.mk key, v) :: members, rest5)
              | none => none
            | '\x7d' :: rest4 => some ([(String.mk key, v)], rest4)
            | _ => none
          | none => none
        | _ => none
      | none => none
    | _ => none

def parseElems : Nat → List Char → Option (List Json × List Char)
  | 0, _ => none
  | fuel + 1, s =>
    match parseVal fuel s with
    | some (v, rest) =>
      match skipWs rest with
      | ',' :: rest2 =>
        match parseElems fuel rest2 with
        | some (elems, rest3) => some (v :: elems, rest3)
        | none => none
      | ']' :: rest2 => some ([v], rest2)
      | _ => none
    | none => none

end

/-- Parse a complete JSON document (value plus trailing whitespace only). -/
def parseJson (s : List Char) : Option Json :=
  match parseVal (s.length + 1) s with
  | some (v, rest) => if skipWs rest = [] then some v else none
  | none => none

/- ### Task schema constants (src/app/models/task_model.py)

`task_category_literals` embeds the `task_category` Literal (lines 6-21),
`priority_literals` and `status_literals` the Literal annotations of
`task.priority` (line 63) and `task.status` (line 65), and
`task_model_fields` the declaration order of `task`'s fields
(`model_fields.keys()`, lines 60-69). -/

def task_category_literals : List String :=
  ["Frontend", "Backend", "Testing", "Infra", "DevOps", "Database", "Security",
   "API", "UI_UX", "Documentation", "Architecture", "Mobile", "Cloud", "Analytics"]

def priority_literals : List String := ["baja", "media", "alta", "bloqueante"]

def status_literals : List String := ["pendiente", "en_progreso", "en_revision", "completada"]

def task_model_fields : List String :=
  ["id", "title", "description", "priority", "effort_hours", "status",
   "assigned_to", "category", "risk_analysis", "risk_mitigation"]

/-- Required fields of the creation endpoint: every model field except `id`
(src/app/main.py line 110). -/
def required_fields : List String :=
  task_model_fields.filter (fun n => !(n == ("id")))

/- ### Validation Diagnostic Translator
(src/app/main.py, `validation_exception_handler`, lines 91-193) -/

/-- One entry of `exc.errors()`: the pydantic validation failure record,
with its `loc` path, `type` tag and `msg` text.  An integer path
component (an array index) is carried as its decimal string; the handler
only tests `loc` for membership of the three field names, which an
integer can never equal, so this representation is faithful. -/
structure PydErr where
  loc : List String
  typ : String
  msg : String

def containsKey (members : List (String × Json)) (k : String) : Bool :=
  members.any (fun m => m.fst == k)

/-- Python `dict` lookup; on duplicate JSON keys `json.loads` keeps the last
occurrence, hence the lookup from the reversed list. -/
def lookupKey (members : List (String × Json)) (k : String) : Option Json :=
  (members.reverse.find? (fun m => m.fst == k)).map Prod.snd

/-- Lines 94-105: the parsed body (`none` when `request.json()` raised),
reduced to a dict, unwrapped one level when keyed by `"task_input"`, and
emptied when the unwrapped value is not a dict. -/
def fieldContainer (payload : Option Json) : List (String × Json) :=
  match payload with
  | some (Json.obj members) =>
    if containsKey members ("task_input") then
      match lookupKey members ("task_input") with
      | some (Json.obj inner) => inner
      | _ => []
    else members
  | _ => []

/-- Line 112: `[f for f in required_fields if f not in body_data]`. -/
def missing_fields (container : List (String × Json)) : List String :=
  required_fields.filter (fun f => !(containsKey container f))

/- #### The malformed-JSON re-scan (lines 139-174)

The scan works with `re.search` over the raw body text.  Each `tryXxxAt`
function plays the pattern at one position; `scanFor` retries it at every
position left to right, which is exactly `re.search`'s behaviour because
within each pattern the greedy `\s*` runs can never trade characters with
their neighbours (whitespace is disjoint from every delimiter class). -/

def scanFor {α : Type} (tryAt : List Char → Option α) : List Char → Option α
  | [] => none
  | c :: cs =>
    match tryAt (c :: cs) with
    | some r => some r
    | none => scanFor tryAt cs

/-- The characters `"field"` with the quotes. -/
def quoteName (field : String) : List Char :=
  ('"') :: field.data ++ [('"')]

/-- Matches `\s*:` and returns the remainder directly after the colon. -/
def colonRest (s : List Char) : Option (List Char) :=
  match s.dropWhile isPySpace with
  | ':' :: rest => some rest
  | _ => none

/-- Line 148: the pattern `"{field}"\s*:\s*[,}]` at one position. -/
def tryEmptyAt (field : String) (s : List Char) : Option Unit :=
  if isPrefixB (quoteName field) s then
    match colonRest (s.drop (quoteName field).length) with
    | some r =>
      match r.dropWhile isPySpace with
      | c :: _ => if c = (',') || c = ('\x7d') then some () else none
      | [] => none
    | none => none
  else none

/-- Line 149: `re.search(pattern_empty, raw)` as a Boolean. -/
def emptyPattern (field : String) (raw : List Char) : Bool :=
  (scanFor (tryEmptyAt field) raw).isSome

/-- Lines 158-160: the pattern `"{field}"\s*:\s*(.+)` at one position,
followed by `group(1).lstrip()`.  `.` does not match a newline, so the
group runs from the first non-whitespace character after the colon to the
end of its line; when only whitespace follows, the group (if the regex
matches at all) is pure whitespace and the `lstrip` leaves it empty. -/
def tryUnquotedAt (field : String) (s : List Char) : Option (List Char) :=
  if isPrefixB (quoteName field) s then
    match colonRest (s.drop (quoteName field).length) with
    | some r =>
      match r.dropWhile isPySpace with
      | c :: cs => some ((c :: cs).takeWhile (fun d => !(d == ('\n'))))
      | [] => if r.any (fun d => !(d == ('\n'))) then some [] else none
    | none => none
  else none

/-- Character class `[^,}\]\s]` of line 166. -/
def effortTokenChar (c : Char) : Bool :=
  !(c == (',') || c == ('\x7d') || c == (']') || isPySpace c)

/-- Line 166: the pattern `"effort_hours"\s*:\s*([^,}\]\s]+)` at one
position (the captured token contains no whitespace, so the `strip()` of
line 168 is the identity). -/
def tryEffortAt (s : List Char) : Option (List Char) :=
  if isPrefixB (quoteName ("effort_hours")) s then
    match colonRest (s.drop (quoteName ("effort_hours")).length) with
    | some r =>
      match (r.dropWhile isPySpace).takeWhile effortTokenChar with
      | [] => none
      | c :: cs => some (c :: cs)
    | none => none
  else none

/-- Exponent suffix `(?:[eE][+\-]?\d+)?` anchored to the end. -/
def expTail : List Char → Bool
  | [] => true
  | c :: cs =>
    if c = ('e') || c = ('E') then
      match cs with
      | s :: rest =>
        if s = ('+') || s = ('-') then !(rest.isEmpty) && rest.all Char.isDigit
        else !(cs.isEmpty) && cs.all Char.isDigit
      | [] => false
    else false

/-- Line 172: `re.fullmatch(r'-?(?:\d+(?:\.\d*)?|\.\d+)(?:[eE][+\-]?\d+)?', val)`.
The class `\d` is modelled by the ASCII digits; Python's `\d` also accepts
other Unicode decimal digits, a case no stated property touches (an
all-ASCII token classifies identically in model and program). -/
def isNumericLit (s : List Char) : Bool :=
  let t := match s with
    | c :: cs => if c = ('-') then cs else c :: cs
    | [] => []
  match t with
  | [] => false
  | c :: _ =>
    if c.isDigit then
      match t.dropWhile Char.isDigit with
      | '.' :: rest => expTail (rest.dropWhile Char.isDigit)
      | ds => expTail ds
    else if c = ('.') then
      !((t.drop 1).takeWhile Char.isDigit).isEmpty && expTail ((t.drop 1).dropWhile Char.isDigit)
    else false

/-- Fields scanned for empty values (lines 144-145). -/
def all_fields : List String :=
  ["title", "description", "priority", "status", "assigned_to",
   "category", "risk_analysis", "risk_mitigation", "effort_hours"]

/-- String-typed fields checked for unquoted values (lines 153-154). -/
def string_fields : List String :=
  ["title", "description", "priority", "status", "assigned_to",
   "category", "risk_analysis", "risk_mitigation"]

/-- Lines 143-150: flag every field appearing as `"field": ,` or `"field": }`. -/
def rescan_empty (raw : List Char) (acc : List String) : List String :=
  all_fields.foldl (fun acc field =>
    if emptyPattern field raw then acc ++ [field ++ (" tiene valor vacío o formato inválido")]
    else acc) acc

/-- Lines 152-162: flag unquoted string values, skipping any field already
named (as a substring) by an accumulated message. -/
def rescan_unquoted (raw : List Char) (acc : List String) : List String :=
  string_fields.foldl (fun acc field =>
    if acc.any (fun m => containsB field.data m.data) then acc
    else
      match scanFor (tryUnquotedAt field) raw with
      | some (c :: _) =>
        if !(c == ('"')) && !(c == (',')) && !(c == ('\x7d')) then
          acc ++ [field ++ (" tiene formato inválido: debe ser texto entre comillas dobles")]
        else acc
      | some [] => acc
      | none => acc) acc

/-- Lines 164-174: flag a non-numeric unquoted `effort_hours` token, unless
some accumulated message already mentions `effort_hours`. -/
def rescan_effort (raw : List Char) (acc : List String) : List String :=
  if acc.any (fun m => containsB (("effort_hours").data) m.data) then acc
  else
    match scanFor tryEffortAt raw with
    | some (c :: cs) =>
      if c = ('"') then acc
      else if isNumericLit (c :: cs) then acc
      else acc ++ ["effort_hours debe ser numérico"]
    | some [] => acc
    | none => acc

/-- The whole `json_invalid` re-scan (lines 139-174), three blocks in
source order. -/
def rescan (raw : List Char) (acc : List String) : List String :=
  rescan_effort raw (rescan_unquoted raw (rescan_empty raw acc))

/-- Lines 116-176: classification of one validation failure record,
appending to the accumulated `invalid_msgs`. -/
def classify_step (raw : List Char) (acc : List String) (err : PydErr) : List String :=
  let type_name := lowerStr err.typ
  let msg_text := lowerStr err.msg
  if err.loc.contains ("effort_hours") then
    if type_name = ("greater_than") || containsB (("greater than").data) msg_text.data then
      acc ++ ["effort_hours debe ser mayor a 0"]
    else if containsB (("valid number").data) msg_text.data
        || containsB (("parsing").data) type_name.data
        || containsB (("float").data) type_name.data
        || containsB (("int").data) type_name.data then
      acc ++ ["effort_hours debe ser numérico"]
    else acc
  else if err.loc.contains ("priority") then
    acc ++ [("priority debe ser uno de: ") ++ joinSep (", ") priority_literals]
  else if err.loc.contains ("status") then
    acc ++ [("status debe ser uno de: ") ++ joinSep (", ") status_literals]
  else if type_name = ("json_invalid") then
    rescan raw acc
  else acc

/-- The `for err in exc.errors()` loop building `invalid_msgs`. -/
def classify_errors (raw : List Char) (errs : List PydErr) : List String :=
  errs.foldl (classify_step raw) []

/-- Lines 178-191: assemble the final `msg` from the missing-field list and
the accumulated `invalid_msgs`. -/
def build_msg (missing : List String) (invalid : List String) : String :=
  let parts : List String :=
    if !(invalid.isEmpty) then
      if invalid.any (fun m => isPrefixB (("effort_hours debe ser numérico").data) m.data)
          || invalid.any (fun m => containsB (("formato inválido").data) m.data) then
        [joinSep ("; ") invalid]
      else
        (if !(missing.isEmpty) then
          [("Faltan los siguientes campos requeridos: ") ++ joinSep (", ") missing]
         else [])
        ++ [joinSep ("; ") invalid]
    else if !(missing.isEmpty) then
      [("Faltan los siguientes campos requeridos: ") ++ joinSep (", ") missing]
    else []
  if !(parts.isEmpty) then joinSep (" ") parts else ("Datos incompletos o inválidos.")

/-- The JSON response of line 193. -/
structure HandlerResponse where
  status_code : Nat
  msg : String
  detail : List PydErr

/-- The whole handler: `payload` is the outcome of `request.json()`
(`none` when parsing raised, whereupon the `except` of line 98 yields an
empty dict), `raw` the raw body text read by line 141, `errs` the
validator's failure list. -/
def validation_exception_handler (payload : Option Json) (raw : List Char)
    (errs : List PydErr) : HandlerResponse :=
  { status_code := 422,
    msg := build_msg (missing_fields (fieldContainer payload)) (classify_errors raw errs),
    detail := errs }

/- ### UTF-8 codec (the `decode("utf-8", errors="ignore")` of line 67 and
the `encode("utf-8")` of line 75)

Bytes are `Nat` values below 256.  `utf8Step` reads one scalar value with
CPython's validation (no overlong forms, no surrogates, max U+10FFFF);
`bad` drops exactly the lead byte, which produces the same decoded text as
CPython's maximal-subpart skipping under `errors="ignore"`, because any
continuation bytes of an invalid sequence are themselves invalid lead
bytes and get dropped on the following steps. -/

def contByte (b : Nat) : Bool := decide (0x80 ≤ b ∧ b ≤ 0xBF)

/-- Allowed first continuation byte after a three-byte lead `b`. -/
def cont1ok3 (b b1 : Nat) : Bool :=
  if b = 0xE0 then decide (0xA0 ≤ b1 ∧ b1 ≤ 0xBF)
  else if b = 0xED then decide (0x80 ≤ b1 ∧ b1 ≤ 0x9F)
  else contByte b1

/-- Allowed first continuation byte after a four-byte lead `b`. -/
def cont1ok4 (b b1 : Nat) : Bool :=
  if b = 0xF0 then decide (0x90 ≤ b1 ∧ b1 ≤ 0xBF)
  else if b = 0xF4 then decide (0x80 ≤ b1 ∧ b1 ≤ 0x8F)
  else contByte b1

inductive Utf8Step where
  | done
  | ok (c : Char) (rest : List Nat)
  | bad (rest : List Nat)

def utf8Step : List Nat → Utf8Step
  | [] => Utf8Step.done
  | b :: bs =>
    if b < 0x80 then Utf8Step.ok (Char.ofNat b) bs
    else if b < 0xC2 then Utf8Step.bad bs
    else if b ≤ 0xDF then
      match bs with
      | b1 :: bs' =>
        if contByte b1 then Utf8Step.ok (Char.ofNat ((b - 0xC0) * 64 + (b1 - 0x80))) bs'
        else Utf8Step.bad bs
      | [] => Utf8Step.bad bs
    else if b ≤ 0xEF then
      match bs with
      | b1 :: b2 :: bs' =>
        if cont1ok3 b b1 && contByte b2 then
          Utf8Step.ok (Char.ofNat ((b - 0xE0) * 4096 + (b1 - 0x80) * 64 + (b2 - 0x80))) bs'
        else Utf8Step.bad bs
      | _ => Utf8Step.bad bs
    else if b ≤ 0xF4 then
      match bs with
      | b1 :: b2 :: b3 :: bs' =>
        if cont1ok4 b b1 && contByte b2 && contByte b3 then
          Utf8Step.ok
            (Char.ofNat ((b - 0xF0) * 262144 + (b1 - 0x80) * 4096 + (b2 - 0x80) * 64 + (b3 - 0x80)))
            bs'
        else Utf8Step.bad bs
      | _ => Utf8Step.bad bs
    else Utf8Step.bad bs

/-- Decoding loop; each step consumes at least one byte, so the byte count
is enough fuel.  With `replacePolicy` every dropped byte yields U+FFFD
instead of nothing. -/
def utf8DecodeFuel (replacePolicy : Bool) : Nat → List Nat → List Char
  | 0, _ => []
  | n + 1, bs =>
    match utf8Step bs with
    | Utf8Step.done => []
    | Utf8Step.ok c rest => c :: utf8DecodeFuel replacePolicy n rest
    | Utf8Step.bad rest =>
      (if replacePolicy then [Char.ofNat 0xFFFD] else []) ++ utf8DecodeFuel replacePolicy n rest

/-- `bytes.decode("utf-8", errors="ignore")`: the decoding the source uses. -/
def utf8DecodeIgnore (bs : List Nat) : List Char := utf8DecodeFuel false bs.length bs

/-- Follows the spec's words, not the source: decoding in which an invalid
byte sequence is REPLACED by the substitution character U+FFFD rather than
dropped (`errors="replace"`), stated for comparison with
`utf8DecodeIgnore`. -/
def specDecodeReplace (bs : List Nat) : List Char := utf8DecodeFuel true bs.length bs

/-- `str.encode("utf-8")` for one character. -/
def utf8EncodeChar (c : Char) : List Nat :=
  let v := c.toNat
  if v < 0x80 then [v]
  else if v < 0x800 then [0xC0 + v / 64, 0x80 + v % 64]
  else if v < 0x10000 then [0xE0 + v / 4096, 0x80 + (v / 64) % 64, 0x80 + v % 64]
  else [0xF0 + v / 262144, 0x80 + (v / 4096) % 64, 0x80 + (v / 64) % 64, 0x80 + v % 64]

def utf8Encode (s : List Char) : List Nat := (s.map utf8EncodeChar).flatten

/-- Lines 66-75 of the sanitizer: join the chunks, decode ignoring invalid
bytes, apply the two rewrite rules, re-encode. -/
def sanitizeBytes (bs : List Nat) : List Nat :=
  utf8Encode (sanitizeText (utf8DecodeIgnore bs))

/- ### The receive wrapper as a state machine
(src/app/main.py, `receive_wrapper`, lines 47-78)

`incoming` models the pending messages of the underlying ASGI `receive`
channel; a `receive_wrapper` call returns `none` exactly when it would
suspend on an empty channel. -/

structure RecvMsg where
  typ : String
  body : List Nat
  more_body : Bool

structure SanState where
  body_parts : List (List Nat)
  body_received : Bool
  incoming : List RecvMsg

/-- The terminal message of line 56: empty body, no more body. -/
def emptyTerminal : RecvMsg :=
  { typ := ("http.request"), body := [], more_body := false }

def receive_wrapper (s : SanState) : Option (RecvMsg × SanState) :=
  if s.body_received then some (emptyTerminal, s)
  else
    match s.incoming with
    | [] => none
    | m :: rest =>
      if m.typ = ("http.request") then
        let parts := s.body_parts ++ [m.body]
        if m.more_body then some (m, { s with body_parts := parts, incoming := rest })
        else
          some ({ typ := ("http.request"), body := sanitizeBytes parts.flatten, more_body := false },
                { body_parts := parts, body_received := true, incoming := rest })
      else some (m, { s with incoming := rest })

/-- The sequence of messages produced by `n` consecutive wrapper calls. -/
def readsFrom : SanState → Nat → List RecvMsg
  | _, 0 => []
  | s, n + 1 =>
    match receive_wrapper s with
    | none => []
    | some (m, s') => m :: readsFrom s' n

/- ### `task_ai_input` and `to_task`
(src/app/models/task_model.py, lines 89-157)

Python values accepted at the permissive `effort_hours: Optional[Any]`
field are modelled by `PyVal`; finite floats and ints are carried as
rationals (`isinstance(v, (int, float))` also holds for `bool`, which is
an `int` subclass, with `float(True) = 1.0` and `float(False) = 0.0`). -/

inductive PyVal where
  | vnone : PyVal
  | vstr (s : String) : PyVal
  | vint (n : Int) : PyVal
  | vfloat (q : ℚ) : PyVal
  | vbool (b : Bool) : PyVal
  | vother : PyVal
deriving DecidableEq

/-- The numeric reading of a value when `isinstance(v, (int, float))`. -/
def pyNumVal : PyVal → Option ℚ
  | PyVal.vint n => some (n : ℚ)
  | PyVal.vfloat q => some q
  | PyVal.vbool b => some (if b then 1 else 0)
  | _ => none

/-- The `normalize_effort_hours` field validator (lines 130-142). -/
def normalize_effort_hours (v : PyVal) : Option ℚ :=
  if v = PyVal.vstr ("") ∨ v = PyVal.vnone then none
  else
    match pyNumVal v with
    | some q => if q ≤ 0 then none else some q
    | none => none

/-- The `empty_string_to_none` field validator (lines 122-128 and 71-77). -/
def empty_string_to_none (v : Option String) : Option String :=
  if v = some ("") then none else v

/-- The strict `task` model (lines 24-86); the Literal constraints on
`priority` and `status` are not needed by the claims and are left as
plain strings. -/
structure task where
  id : Option Int
  title : String
  description : String
  priority : String
  effort_hours : Option ℚ
  status : String
  assigned_to : String
  category : Option String
  risk_analysis : Option String
  risk_mitigation : Option String

/-- The permissive `task_ai_input` model (lines 89-142), holding its
fields after validation. -/
structure task_ai_input where
  id : Option Int
  title : String
  description : String
  priority : String
  effort_hours : Option ℚ
  status : String
  assigned_to : String
  category : Option String
  risk_analysis : Option String
  risk_mitigation : Option String

/-- Constructing a `task_ai_input` from raw field values runs the two
`mode="before"` validators. -/
def mk_task_ai_input (i : Option Int) (title description priority : String)
    (effort_raw : PyVal) (stat assigned_to : String)
    (category risk_analysis risk_mitigation : Option String) : task_ai_input :=
  { id := i, title := title, description := description, priority := priority,
    effort_hours := normalize_effort_hours effort_raw,
    status := stat, assigned_to := assigned_to,
    category := empty_string_to_none category,
    risk_analysis := empty_string_to_none risk_analysis,
    risk_mitigation := empty_string_to_none risk_mitigation }

/-- `task_ai_input.to_task` (lines 144-157). -/
def to_task (t : task_ai_input) : task :=
  { id := t.id, title := t.title, description := t.description, priority := t.priority,
    effort_hours :=
      match t.effort_hours with
      | some q => if 0 < q then some q else none
      | none => none,
    status := t.status, assigned_to := t.assigned_to,
    category :=
      match t.category with
      | some c => if task_category_literals.contains c then some c else none
      | none => none,
    risk_analysis := t.risk_analysis,
    risk_mitigation := t.risk_mitigation }

/- ## Theorems -/

/-- When the text contains no colon-whitespace-delimiter occurrence, the
substitution is the identity. -/
theorem subColonFuel_id (delim : Char) (repl : List Char) :
    ∀ (fuel : Nat) (s : List Char), hasCD delim s = false → subColonFuel delim repl fuel s = s
  | 0, _, _ => rfl
  | _ + 1, [], _ => rfl
  | fuel + 1, c :: cs, h => by
    rw [hasCD, Bool.or_eq_false_iff] at h
    obtain ⟨h1, h2⟩ := h
    by_cases hc : c = (':')
    · rw [if_pos hc] at h1
      cases hm : matchAfterColon delim cs with
      | none =>
        simp only [subColonFuel, if_pos hc, hm]
        rw [subColonFuel_id delim repl fuel cs h2]
      | some rest => rw [hm] at h1; exact absurd h1 (by simp)
    · simp only [subColonFuel, if_neg hc]
      rw [subColonFuel_id delim repl fuel cs h2]

theorem matchAfterColon_some_length (delim : Char) :
    ∀ (cs rest : List Char), matchAfterColon delim cs = some rest → rest.length < cs.length := by
  intro cs
  induction cs with
  | nil => intro rest h; exact absurd h (by simp [matchAfterColon])
  | cons c cs ih =>
    intro rest h
    rw [matchAfterColon] at h
    by_cases hc : c = delim
    · rw [if_pos hc] at h
      injection h with h
      subst h
      simp
    · rw [if_neg hc] at h
      by_cases hw : isPySpace c = true
      · rw [if_pos hw] at h
        have := ih rest h
        simp only [List.length_cons]
        omega
      · rw [if_neg hw] at h
        exact absurd h (by simp)

/-- A colon head never begins a match when the delimiter is not a colon. -/
theorem matchAfterColon_colon_cons (delim : Char) (hd : ¬ delim = (':')) (X : List Char) :
    matchAfterColon delim ((':') :: X) = none := by
  simp only [matchAfterColon]
  rw [if_neg (fun hh => hd hh.symm), if_neg (by decide)]

/-- The substitution preserves the absence of a match at the very head:
when the input has no leading whitespace-then-delimiter run, neither has
the rewritten text (the replacement text itself starts with a colon). -/
theorem matchAfterColon_sub_none (delim : Char) (repl : List Char) (hd : ¬ delim = (':'))
    (hrepl : ∀ r : List Char, matchAfterColon delim (repl ++ r) = none) :
    ∀ (fuel : Nat) (cs : List Char), matchAfterColon delim cs = none →
      matchAfterColon delim (subColonFuel delim repl fuel cs) = none := by
  intro fuel
  induction fuel with
  | zero => intro cs h; exact h
  | succ n ih =>
    intro cs h
    match cs with
    | [] => exact h
    | c :: cs' =>
      by_cases hc : c = (':')
      · subst hc
        cases hm : matchAfterColon delim cs' with
        | some rest =>
          simp only [subColonFuel, hm, eq_self_iff_true, if_true]
          exact hrepl _
        | none =>
          simp only [subColonFuel, hm, eq_self_iff_true, if_true]
          exact matchAfterColon_colon_cons delim hd _
      · rw [matchAfterColon] at h
        have hcd : ¬ c = delim := by
          intro hh
          rw [if_pos hh] at h
          exact absurd h (by simp)
        rw [if_neg hcd] at h
        simp only [subColonFuel, if_neg hc]
        rw [matchAfterColon, if_neg hcd]
        by_cases hw : isPySpace c = true
        · rw [if_pos hw] at h ⊢
          exact ih cs' h
        · rw [if_neg hw]

/-- Global completeness of one substitution pass: with enough fuel, the
output contains no remaining colon-whitespace-delimiter occurrence (the
replacement neither contains nor helps form one). -/
theorem hasCD_sub_false (delim : Char) (repl : List Char) (hd : ¬ delim = (':'))
    (hrepl : ∀ r : List Char, matchAfterColon delim (repl ++ r) = none)
    (hskip : ∀ t : List Char, hasCD delim (repl ++ t) = hasCD delim t) :
    ∀ (fuel : Nat) (s : List Char), s.length ≤ fuel →
      hasCD delim (subColonFuel delim repl fuel s) = false := by
  intro fuel
  induction fuel with
  | zero =>
    intro s hs
    have hnil : s = [] := List.length_eq_zero.mp (by omega)
    subst hnil
    rfl
  | succ n ih =>
    intro s hs
    match s with
    | [] => rfl
    | c :: cs =>
      simp only [List.length_cons] at hs
      by_cases hc : c = (':')
      · subst hc
        cases hm : matchAfterColon delim cs with
        | some rest =>
          simp only [subColonFuel, hm, eq_self_iff_true, if_true]
          rw [hskip]
          have hlt := matchAfterColon_some_length delim cs rest hm
          exact ih rest (by omega)
        | none =>
          simp only [subColonFuel, hm, eq_self_iff_true, if_true]
          simp only [hasCD, eq_self_iff_true, if_true]
          rw [matchAfterColon_sub_none delim repl hd hrepl n cs hm]
          simp only [Option.isSome_none, Bool.false_or]
          exact ih cs (by omega)
      · simp only [subColonFuel, if_neg hc]
        simp only [hasCD, if_neg hc, Bool.false_or]
        exact ih cs (by omega)

theorem comma_repl_no_match (r : List Char) :
    matchAfterColon (',') ((": null,").data ++ r) = none := by
  have hdata : (": null,").data = [(':'), (' '), ('n'), ('u'), ('l'), ('l'), (',')] := rfl
  rw [hdata]
  simp [matchAfterColon, isPySpace]

theorem brace_repl_no_match (r : List Char) :
    matchAfterColon ('\x7d') ((": null\x7d").data ++ r) = none := by
  have hdata : (": null\x7d").data = [(':'), (' '), ('n'), ('u'), ('l'), ('l'), ('\x7d')] := rfl
  rw [hdata]
  simp [matchAfterColon, isPySpace]

theorem comma_repl_hasCD (t : List Char) :
    hasCD (',') ((": null,").data ++ t) = hasCD (',') t := by
  have hdata : (": null,").data = [(':'), (' '), ('n'), ('u'), ('l'), ('l'), (',')] := rfl
  rw [hdata]
  simp [hasCD, matchAfterColon, isPySpace]

theorem brace_repl_hasCD (t : List Char) :
    hasCD ('\x7d') ((": null\x7d").data ++ t) = hasCD ('\x7d') t := by
  have hdata : (": null\x7d").data = [(':'), (' '), ('n'), ('u'), ('l'), ('l'), ('\x7d')] := rfl
  rw [hdata]
  simp [hasCD, matchAfterColon, isPySpace]

theorem comma_pass_complete (s : List Char) :
    hasCD (',') (subColonDelim (',') ((": null,").data) s) = false :=
  hasCD_sub_false (',') _ (by decide) comma_repl_no_match comma_repl_hasCD s.length s le_rfl

theorem brace_pass_complete (s : List Char) :
    hasCD ('\x7d') (subColonDelim ('\x7d') ((": null\x7d").data) s) = false :=
  hasCD_sub_false ('\x7d') _ (by decide) brace_repl_no_match brace_repl_hasCD s.length s le_rfl

/-- Claim C1: the Body Sanitizer rewrites every colon-whitespace-comma
occurrence to `: null,` and every colon-whitespace-brace occurrence to
`: null}` over the decoded text (the comma pass first, then the brace
pass, each a global substitution); every occurrence is rewritten — no
colon-whitespace-delimiter occurrence survives its pass — and in
particular the two null-filling examples of the spec sanitize as
stated. -/
theorem C1_null_filling :
    (∀ bs : List Nat,
        sanitizeBytes bs = utf8Encode
          (subColonDelim ('\x7d') ((": null\x7d").data)
            (subColonDelim (',') ((": null,").data) (utf8DecodeIgnore bs)))) ∧
    (∀ s : List Char, hasCD (',') (subColonDelim (',') ((": null,").data) s) = false) ∧
    (∀ s : List Char, hasCD ('\x7d') (subColonDelim ('\x7d') ((": null\x7d").data) s) = false) ∧
    sanitizeText (("\x7b\"a\": , \"b\": 1\x7d").data) = ("\x7b\"a\": null, \"b\": 1\x7d").data ∧
    sanitizeText (("\x7b\"a\": 1, \"b\": \x7d").data) = ("\x7b\"a\": 1, \"b\": null\x7d").data :=
  ⟨fun _ => rfl, comma_pass_complete, brace_pass_complete, rfl, rfl⟩

/-- Claim C2 (amended): a request body in which no colon is followed by
optional whitespace (Python's `\s` class, Unicode whitespace included)
and then directly a comma or a closing brace passes through the Body
Sanitizer unchanged byte for byte (in valid JSON a colon outside string
literals is always followed by a value token, so only string literals
containing such an occurrence are at risk). -/
theorem C2_wellformed_passthrough (s : List Char)
    (hcomma : hasCD (',') s = false) (hbrace : hasCD ('\x7d') s = false) :
    sanitizeText s = s := by
  unfold sanitizeText subColonDelim
  rw [subColonFuel_id _ _ _ _ hcomma, subColonFuel_id _ _ _ _ hbrace]

theorem C2_wellformed_passthrough_witness :
    hasCD (',') (("\x7b\"a\": 1\x7d").data) = false ∧
    hasCD ('\x7d') (("\x7b\"a\": 1\x7d").data) = false ∧
    sanitizeText (("\x7b\"a\": 1\x7d").data) = ("\x7b\"a\": 1\x7d").data :=
  ⟨by decide, by decide, C2_wellformed_passthrough _ (by decide) (by decide)⟩

/-- Claim C2 is false as stated: the body `{"a": ":,"}` is syntactically
valid JSON, yet the Sanitizer rewrites the colon-comma occurrence inside
the string literal, changing the value of field `a` from `":,"` to
`": null,"` — the output re-parses to a semantically different document.
The same happens through Unicode whitespace: the valid body whose `a`
value is a colon, a no-break space and a comma is rewritten too (Python's
`\s` matches U+00A0), and that occurrence is duly reported by `hasCD`, so
the amended passthrough guarantee does not cover it. -/
theorem C2_counterexample :
    parseJson (("\x7b\"a\": \":,\"\x7d").data)
      = some (Json.obj [(("a"), Json.str ((":,").data))]) ∧
    sanitizeText (("\x7b\"a\": \":,\"\x7d").data) = ("\x7b\"a\": \": null,\"\x7d").data ∧
    parseJson (sanitizeText (("\x7b\"a\": \":,\"\x7d").data))
      = some (Json.obj [(("a"), Json.str ((": null,").data))]) ∧
    Json.str ((":,").data) ≠ Json.str ((": null,").data) ∧
    parseJson (("\x7b\"a\": \":\xA0,\"\x7d").data)
      = some (Json.obj [(("a"), Json.str ((":\xA0,").data))]) ∧
    hasCD (',') (("\x7b\"a\": \":\xA0,\"\x7d").data) = true ∧
    sanitizeText (("\x7b\"a\": \":\xA0,\"\x7d").data) = ("\x7b\"a\": \": null,\"\x7d").data := by
  refine ⟨rfl, rfl, rfl, ?_, rfl, rfl, rfl⟩
  intro h
  injection h with h'
  exact absurd h' (by decide)

/-- Claim C3: whenever the accumulated invalid-message list carries a
format-specific clause (an unquoted-string clause, which contains
"formato inválido", or the effort_hours non-numeric clause, which starts
with "effort_hours debe ser numérico"), the final message is exactly the
invalid clauses joined by "; " — the missing-required-fields listing
never appears. -/
theorem C3_format_precedence (missing invalid : List String)
    (h : (∃ m ∈ invalid, isPrefixB (("effort_hours debe ser numérico").data) m.data = true) ∨
         (∃ m ∈ invalid, containsB (("formato inválido").data) m.data = true)) :
    build_msg missing invalid = joinSep ("; ") invalid := by
  have hne : invalid.isEmpty = false := by
    rcases h with ⟨m, hm, _⟩ | ⟨m, hm, _⟩ <;> cases invalid <;> simp_all
  have hcond : (invalid.any (fun m => isPrefixB (("effort_hours debe ser numérico").data) m.data)
      || invalid.any (fun m => containsB (("formato inválido").data) m.data)) = true := by
    rcases h with ⟨m, hm, hp⟩ | ⟨m, hm, hp⟩
    · exact Bool.or_eq_true_iff.mpr (Or.inl (List.any_eq_true.mpr ⟨m, hm, hp⟩))
    · exact Bool.or_eq_true_iff.mpr (Or.inr (List.any_eq_true.mpr ⟨m, hm, hp⟩))
  unfold build_msg
  rw [hne, hcond]
  rfl

theorem C3_format_precedence_witness :
    build_msg (["description"])
        (["title tiene formato inválido: debe ser texto entre comillas dobles"])
      = ("title tiene formato inválido: debe ser texto entre comillas dobles") :=
  C3_format_precedence _ _
    (Or.inr ⟨("title tiene formato inválido: debe ser texto entre comillas dobles"),
      by simp, by decide⟩)

/-- Claim C4: the missing-field report is exactly the required field names
(every model field except the auto-assigned `id`) absent as keys from the
field container; the container unwraps one `task_input` level and is empty
when parsing failed; a key present with a null value is never reported
missing; and for body `{"title": "x"}` (whose validator records flag the
missing `priority`, `status` and `assigned_to`) the handler answers 422
with a msg containing every required field name except `title`. -/
theorem C4_missing_fields :
    (∀ (container : List (String × Json)) (f : String),
        containsKey container f = true → f ∉ missing_fields container) ∧
    (∀ (container : List (String × Json)) (f : String),
        f ∈ required_fields → containsKey container f = false → f ∈ missing_fields container) ∧
    (∀ members : List (String × Json),
        containsKey members ("task_input") = false →
        fieldContainer (some (Json.obj members)) = members) ∧
    fieldContainer none = [] ∧
    missing_fields (fieldContainer (parseJson (("\x7b\"title\": \"x\"\x7d").data)))
      = ["description", "priority", "effort_hours", "status", "assigned_to",
         "category", "risk_analysis", "risk_mitigation"] ∧
    (∀ f ∈ (["description", "priority", "effort_hours", "status", "assigned_to",
             "category", "risk_analysis", "risk_mitigation"] : List String),
        containsB f.data (validation_exception_handler
            (parseJson (("\x7b\"title\": \"x\"\x7d").data)) []
            [{ loc := ["body", "priority"], typ := ("missing"), msg := ("Field required") },
             { loc := ["body", "status"], typ := ("missing"), msg := ("Field required") },
             { loc := ["body", "assigned_to"], typ := ("missing"), msg := ("Field required") }]).msg.data
          = true) ∧
    (validation_exception_handler (parseJson (("\x7b\"title\": \"x\"\x7d").data)) []
        [{ loc := ["body", "priority"], typ := ("missing"), msg := ("Field required") },
         { loc := ["body", "status"], typ := ("missing"), msg := ("Field required") },
         { loc := ["body", "assigned_to"], typ := ("missing"), msg := ("Field required") }]).status_code
      = 422 := by
  refine ⟨?_, ?_, ?_, rfl, by decide, by decide, rfl⟩
  · intro container f h hmem
    rw [missing_fields, List.mem_filter] at hmem
    rw [h] at hmem
    simp at hmem
  · intro container f hf h
    rw [missing_fields, List.mem_filter]
    exact ⟨hf, by rw [h]; rfl⟩
  · intro members h
    rw [fieldContainer, h]
    rfl

theorem C4_missing_fields_witness :
    ("priority") ∉ missing_fields [(("priority"), Json.null)] ∧
    ("status") ∈ missing_fields [(("priority"), Json.null)] ∧
    fieldContainer (some (Json.obj [(("title"), Json.str (("x").data))]))
      = [(("title"), Json.str (("x").data))] :=
  ⟨C4_missing_fields.1 _ _ (by decide),
   C4_missing_fields.2.1 _ _ (by decide) (by decide),
   C4_missing_fields.2.2.1 _ (by decide)⟩

/-- Claim C5: a failure at `effort_hours` tagged `greater_than` yields the
clause "effort_hours debe ser mayor a 0"; a type-mismatch there (a
"valid number"/"parsing"/"float"/"int" marker, as pydantic emits for
float parse failures) yields "effort_hours debe ser numérico"; and the
malformed-JSON re-scan flags an unquoted effort_hours token exactly when
it fails the numeric-literal regex — so token `4.5` is never flagged
while token `ew` is. -/
theorem C5_effort_diagnostics :
    (∀ (raw : List Char) (acc : List String) (err : PydErr),
        err.loc.contains ("effort_hours") = true →
        lowerStr err.typ = ("greater_than") →
        classify_step raw acc err = acc ++ ["effort_hours debe ser mayor a 0"]) ∧
    (∀ (raw : List Char) (acc : List String) (err : PydErr),
        err.loc.contains ("effort_hours") = true →
        ¬ lowerStr err.typ = ("greater_than") →
        containsB (("greater than").data) (lowerStr err.msg).data = false →
        (containsB (("valid number").data) (lowerStr err.msg).data
            || containsB (("parsing").data) (lowerStr err.typ).data
            || containsB (("float").data) (lowerStr err.typ).data
            || containsB (("int").data) (lowerStr err.typ).data) = true →
        classify_step raw acc err = acc ++ ["effort_hours debe ser numérico"]) ∧
    (∀ (raw : List Char) (acc : List String) (c : Char) (cs : List Char),
        acc.any (fun m => containsB (("effort_hours").data) m.data) = false →
        scanFor tryEffortAt raw = some (c :: cs) →
        ¬ c = ('"') →
        (rescan_effort raw acc = acc ++ ["effort_hours debe ser numérico"]
          ↔ isNumericLit (c :: cs) = false)) ∧
    isNumericLit (("4.5").data) = true ∧
    isNumericLit (("ew").data) = false ∧
    classify_errors (("\x7b\"effort_hours\": ew\x7d").data)
        [{ loc := ["body"], typ := ("json_invalid"), msg := ("Invalid JSON") }]
      = ["effort_hours debe ser numérico"] ∧
    classify_errors (("\x7b\"effort_hours\": 4.5\x7d").data)
        [{ loc := ["body"], typ := ("json_invalid"), msg := ("Invalid JSON") }]
      = [] := by
  refine ⟨?_, ?_, ?_, by decide, by decide, by decide, by decide⟩
  · intro raw acc err hloc htyp
    simp [classify_step, hloc, htyp]
    intro h
    exact absurd (by simpa using hloc) h
  · intro raw acc err hloc htyp hmsg hcond
    simp only [classify_step, hloc, if_true]
    rw [if_neg (by simp [htyp, hmsg]), if_pos (by simpa using hcond)]
  · intro raw acc c cs hany hscan hq
    unfold rescan_effort
    rw [hany, hscan]
    simp only [Bool.false_eq_true, if_false]
    rw [if_neg hq]
    by_cases hnum : isNumericLit (c :: cs)
    · rw [if_pos hnum]
      simp only [hnum]
      constructor
      · intro h
        have := congrArg List.length h
        simp at this
      · intro h
        simp at h
    · rw [if_neg hnum]
      simp [hnum]

theorem C5_effort_diagnostics_witness :
    classify_step [] []
        { loc := ["body", "task_input", "effort_hours"], typ := ("greater_than"),
          msg := ("Input should be greater than 0") }
      = ["effort_hours debe ser mayor a 0"] ∧
    classify_step [] []
        { loc := ["body", "task_input", "effort_hours"], typ := ("float_parsing"),
          msg := ("Input should be a valid number, unable to parse string as a number") }
      = ["effort_hours debe ser numérico"] ∧
    (rescan_effort (("\x7b\"effort_hours\": ew\x7d").data) []
        = ["effort_hours debe ser numérico"]
      ↔ isNumericLit (("ew").data) = false) :=
  ⟨C5_effort_diagnostics.1 _ _ _ (by decide) (by decide),
   C5_effort_diagnostics.2.1 _ _ _ (by decide) (by decide) (by decide) (by decide),
   C5_effort_diagnostics.2.2.1 _ _ ('e') (("w").data) (by decide) (by decide) (by decide)⟩

/-- Claim C6: a failure whose path holds `priority` (and not the
`effort_hours` checked first by the handler's branch chain) yields
"priority debe ser uno de: " followed by the comma-joined values of the
schema's `priority` Literal, read from the same `priority_literals` the
model declares; analogously for `status`; for priority those values are
exactly baja, media, alta, bloqueante. -/
theorem C6_enum_clauses :
    (∀ (raw : List Char) (acc : List String) (err : PydErr),
        err.loc.contains ("effort_hours") = false →
        err.loc.contains ("priority") = true →
        classify_step raw acc err
          = acc ++ [("priority debe ser uno de: ") ++ joinSep (", ") priority_literals]) ∧
    (∀ (raw : List Char) (acc : List String) (err : PydErr),
        err.loc.contains ("effort_hours") = false →
        err.loc.contains ("priority") = false →
        err.loc.contains ("status") = true →
        classify_step raw acc err
          = acc ++ [("status debe ser uno de: ") ++ joinSep (", ") status_literals]) ∧
    joinSep (", ") priority_literals = ("baja, media, alta, bloqueante") ∧
    joinSep (", ") status_literals = ("pendiente, en_progreso, en_revision, completada") := by
  refine ⟨?_, ?_, rfl, rfl⟩
  · intro raw acc err heh hp
    unfold classify_step
    rw [heh, hp]
    rfl
  · intro raw acc err heh hp hs
    unfold classify_step
    rw [heh, hp, hs]
    rfl

theorem C6_enum_clauses_witness :
    classify_step [] []
        { loc := ["body", "task_input", "priority"], typ := ("literal_error"),
          msg := ("Input should be baja, media, alta or bloqueante") }
      = ["priority debe ser uno de: baja, media, alta, bloqueante"] ∧
    classify_step [] []
        { loc := ["body", "task_input", "status"], typ := ("literal_error"),
          msg := ("Input should be pendiente, en_progreso, en_revision or completada") }
      = ["status debe ser uno de: pendiente, en_progreso, en_revision, completada"] :=
  ⟨(C6_enum_clauses.1 _ _ _ (by decide) (by decide)).trans (by decide),
   (C6_enum_clauses.2.1 _ _ _ (by decide) (by decide) (by decide)).trans (by decide)⟩

/-- Claim C7: once the final chunk has been drained (`more_body` false)
the wrapper emits the sanitized joined body, records that the body was
received, and from then on every call returns the empty terminal chunk
without touching the pending network messages — the sanitized bytes are
delivered exactly once. -/
theorem C7_no_double_consumption :
    (∀ s : SanState, s.body_received = true → receive_wrapper s = some (emptyTerminal, s)) ∧
    (∀ s : SanState, s.body_received = true →
        ∀ n : Nat, readsFrom s n = List.replicate n emptyTerminal) ∧
    (∀ (s : SanState) (m : RecvMsg) (rest : List RecvMsg),
        s.body_received = false → s.incoming = m :: rest →
        m.typ = ("http.request") → m.more_body = false →
        receive_wrapper s
          = some ({ typ := ("http.request"),
                    body := sanitizeBytes (s.body_parts ++ [m.body]).flatten,
                    more_body := false },
                  { body_parts := s.body_parts ++ [m.body], body_received := true,
                    incoming := rest })) := by
  have hrecv : ∀ s : SanState, s.body_received = true → receive_wrapper s = some (emptyTerminal, s) := by
    intro s h
    unfold receive_wrapper
    rw [h]
    rfl
  refine ⟨hrecv, ?_, ?_⟩
  · intro s h n
    induction n with
    | zero => rfl
    | succ k ih =>
      rw [readsFrom, hrecv s h, List.replicate_succ]
      exact congrArg (emptyTerminal :: ·) ih
  · intro s m rest h hin htyp hmore
    unfold receive_wrapper
    rw [h, hin]
    simp only [Bool.false_eq_true, if_false, htyp, hmore]
    rfl

theorem C7_no_double_consumption_witness :
    receive_wrapper
        { body_parts := [], body_received := false,
          incoming := [{ typ := ("http.request"),
                         body := [123, 34, 97, 34, 58, 32, 125], more_body := false }] }
      = some ({ typ := ("http.request"),
                body := [123, 34, 97, 34, 58, 32, 110, 117, 108, 108, 125],
                more_body := false },
              { body_parts := [[123, 34, 97, 34, 58, 32, 125]], body_received := true,
                incoming := [] }) ∧
    readsFrom
        { body_parts := [[123, 34, 97, 34, 58, 32, 125]], body_received := true,
          incoming := [] } 2
      = [emptyTerminal, emptyTerminal] :=
  ⟨(C7_no_double_consumption.2.2 _ _ _ rfl rfl rfl rfl).trans (by rfl),
   (C7_no_double_consumption.2.1 _ rfl 2).trans (by rfl)⟩

/-- Claim C8: the handler is a total function of the parse outcome, the
raw body and the failure list (every fallible step is absorbed into an
`Option`/default): it always answers status 422 carrying the failure list
unmodified under `detail`; a failed body parse behaves exactly as an empty
object; and when no clause is classified and no field is missing the
message is the generic one. -/
theorem C8_handler_shape :
    (∀ (payload : Option Json) (raw : List Char) (errs : List PydErr),
        (validation_exception_handler payload raw errs).status_code = 422 ∧
        (validation_exception_handler payload raw errs).detail = errs) ∧
    (∀ (raw : List Char) (errs : List PydErr),
        validation_exception_handler none raw errs
          = validation_exception_handler (some (Json.obj [])) raw errs) ∧
    (∀ (payload : Option Json) (raw : List Char) (errs : List PydErr),
        classify_errors raw errs = [] →
        missing_fields (fieldContainer payload) = [] →
        (validation_exception_handler payload raw errs).msg
          = ("Datos incompletos o inválidos.")) := by
  refine ⟨fun _ _ _ => ⟨rfl, rfl⟩, fun _ _ => rfl, ?_⟩
  intro payload raw errs hinv hmiss
  unfold validation_exception_handler
  rw [hinv, hmiss]
  rfl

theorem C8_handler_shape_witness :
    (validation_exception_handler
        (some (Json.obj [(("title"), Json.str (("x").data)), (("description"), Json.null),
          (("priority"), Json.null), (("effort_hours"), Json.null), (("status"), Json.null),
          (("assigned_to"), Json.null), (("category"), Json.null), (("risk_analysis"), Json.null),
          (("risk_mitigation"), Json.null)])) [] []).msg
      = ("Datos incompletos o inválidos.") :=
  C8_handler_shape.2.2 _ _ _ rfl (by decide)

/-- Claim C10: `to_task` always yields an effort strictly above zero or
none, and a category inside the declared fourteen literals or none;
empty, non-numeric or non-positive effort inputs normalize silently to
none, out-of-set categories become none, and empty-string
category/risk_analysis/risk_mitigation inputs become none. -/
theorem C10_to_task_invariants (i : Option Int) (title description priority : String)
    (effort_raw : PyVal) (stat assigned_to : String)
    (category risk_analysis risk_mitigation : Option String) :
    ∀ t : task,
      t = to_task (mk_task_ai_input i title description priority effort_raw stat assigned_to
            category risk_analysis risk_mitigation) →
      (t.effort_hours = none ∨ ∃ q : ℚ, t.effort_hours = some q ∧ 0 < q) ∧
      (t.category = none ∨ ∃ c : String, t.category = some c ∧ c ∈ task_category_literals) ∧
      ((effort_raw = PyVal.vstr ("") ∨ effort_raw = PyVal.vnone ∨ pyNumVal effort_raw = none ∨
          (∃ q : ℚ, pyNumVal effort_raw = some q ∧ q ≤ 0)) → t.effort_hours = none) ∧
      (∀ c : String, category = some c → c ∉ task_category_literals → t.category = none) ∧
      (category = some ("") → t.category = none) ∧
      (risk_analysis = some ("") → t.risk_analysis = none) ∧
      (risk_mitigation = some ("") → t.risk_mitigation = none) := by
  intro t ht
  subst ht
  refine ⟨?_, ?_, ?_, ?_, ?_, ?_, ?_⟩
  · simp only [to_task, mk_task_ai_input]
    cases hn : normalize_effort_hours effort_raw with
    | none => exact Or.inl rfl
    | some q =>
      by_cases hq : 0 < q
      · exact Or.inr ⟨q, by simp [hq], hq⟩
      · exact Or.inl (by simp [hq])
  · simp only [to_task, mk_task_ai_input]
    cases hc : empty_string_to_none category with
    | none => exact Or.inl rfl
    | some c =>
      by_cases hmem : task_category_literals.contains c = true
      · refine Or.inr ⟨c, ?_, by simpa using hmem⟩
        show (if task_category_literals.contains c = true then some c else none) = some c
        exact if_pos hmem
      · refine Or.inl ?_
        show (if task_category_literals.contains c = true then some c else none) = none
        exact if_neg hmem
  · intro h
    have hnone : normalize_effort_hours effort_raw = none := by
      rcases h with h | h | h | ⟨q, hq, hq0⟩
      · simp [normalize_effort_hours, h]
      · simp [normalize_effort_hours, h]
      · rw [normalize_effort_hours]
        split
        · rfl
        · rw [h]
      · rw [normalize_effort_hours]
        split
        · rfl
        · rw [hq]
          simp [hq0]
    simp [to_task, mk_task_ai_input, hnone]
  · intro c hcat hnot
    have hc : empty_string_to_none category = none ∨ empty_string_to_none category = some c := by
      rw [hcat, empty_string_to_none]
      split
      · exact Or.inl rfl
      · exact Or.inr rfl
    rcases hc with hc | hc
    · simp [to_task, mk_task_ai_input, hc]
    · simp [to_task, mk_task_ai_input, hc, hnot]
  · intro h
    simp [to_task, mk_task_ai_input, h, empty_string_to_none]
  · intro h
    simp [to_task, mk_task_ai_input, h, empty_string_to_none]
  · intro h
    simp [to_task, mk_task_ai_input, h, empty_string_to_none]

theorem C10_to_task_invariants_witness :
    (to_task (mk_task_ai_input none ("t") ("d") ("alta") (PyVal.vstr ("x")) ("pendiente") ("p")
        (some ("Nope")) (some ("")) (some ("")))).effort_hours = none ∧
    (to_task (mk_task_ai_input none ("t") ("d") ("alta") (PyVal.vstr ("x")) ("pendiente") ("p")
        (some ("Nope")) (some ("")) (some ("")))).category = none ∧
    (to_task (mk_task_ai_input none ("t") ("d") ("alta") (PyVal.vstr ("x")) ("pendiente") ("p")
        (some ("Nope")) (some ("")) (some ("")))).risk_analysis = none := by
  have h := C10_to_task_invariants none ("t") ("d") ("alta") (PyVal.vstr ("x")) ("pendiente") ("p")
    (some ("Nope")) (some ("")) (some ("")) _ rfl
  exact ⟨h.2.2.1 (Or.inr (Or.inr (Or.inl rfl))),
         h.2.2.2.1 ("Nope") rfl (by decide),
         h.2.2.2.2.2.1 rfl⟩

/-- Decoding one encoded character always succeeds and consumes exactly
its bytes. -/
theorem utf8Step_encodeChar (c : Char) (tail : List Nat) :
    utf8Step (utf8EncodeChar c ++ tail) = Utf8Step.ok c tail := by
  have hv : c.toNat < 0xd800 ∨ (0xdfff < c.toNat ∧ c.toNat < 0x110000) := by
    have h := c.valid
    rw [UInt32.isValidChar] at h
    exact h
  have hofn : Char.ofNat c.toNat = c := Char.ofNat_toNat c
  simp only [utf8EncodeChar]
  by_cases h1 : c.toNat < 0x80
  · rw [if_pos h1]
    simp only [List.cons_append, List.nil_append, utf8Step]
    rw [if_pos h1, hofn]
  · rw [if_neg h1]
    by_cases h2 : c.toNat < 0x800
    · rw [if_pos h2]
      simp only [List.cons_append, List.nil_append, utf8Step]
      rw [if_neg (by omega), if_neg (by omega), if_pos (by omega)]
      have hcont : contByte (0x80 + c.toNat % 64) = true := by
        simp only [contByte, decide_eq_true_eq]
        omega
      rw [if_pos hcont]
      have harith : (0xC0 + c.toNat / 64 - 0xC0) * 64 + (0x80 + c.toNat % 64 - 0x80) = c.toNat := by
        omega
      rw [harith, hofn]
    · rw [if_neg h2]
      by_cases h3 : c.toNat < 0x10000
      · rw [if_pos h3]
        simp only [List.cons_append, List.nil_append, utf8Step]
        rw [if_neg (by omega), if_neg (by omega), if_neg (by omega), if_pos (by omega)]
        have hc1 : cont1ok3 (0xE0 + c.toNat / 4096) (0x80 + c.toNat / 64 % 64) = true := by
          rw [cont1ok3]
          by_cases hb : 0xE0 + c.toNat / 4096 = 0xE0
          · rw [if_pos hb, decide_eq_true_eq]
            omega
          · rw [if_neg hb]
            by_cases hb2 : 0xE0 + c.toNat / 4096 = 0xED
            · rw [if_pos hb2, decide_eq_true_eq]
              omega
            · rw [if_neg hb2]
              simp only [contByte, decide_eq_true_eq]
              omega
        have hc2 : contByte (0x80 + c.toNat % 64) = true := by
          simp only [contByte, decide_eq_true_eq]
          omega
        rw [hc1, hc2]
        simp only [Bool.and_self, if_true]
        have harith : (0xE0 + c.toNat / 4096 - 0xE0) * 4096 + (0x80 + c.toNat / 64 % 64 - 0x80) * 64
            + (0x80 + c.toNat % 64 - 0x80) = c.toNat := by
          omega
        rw [harith, hofn]
      · rw [if_neg h3]
        simp only [List.cons_append, List.nil_append, utf8Step]
        rw [if_neg (by omega), if_neg (by omega), if_neg (by omega), if_neg (by omega),
          if_pos (by omega)]
        have hc1 : cont1ok4 (0xF0 + c.toNat / 262144) (0x80 + c.toNat / 4096 % 64) = true := by
          rw [cont1ok4]
          by_cases hb : 0xF0 + c.toNat / 262144 = 0xF0
          · rw [if_pos hb, decide_eq_true_eq]
            omega
          · rw [if_neg hb]
            by_cases hb2 : 0xF0 + c.toNat / 262144 = 0xF4
            · rw [if_pos hb2, decide_eq_true_eq]
              omega
            · rw [if_neg hb2]
              simp only [contByte, decide_eq_true_eq]
              omega
        have hc2 : contByte (0x80 + c.toNat / 64 % 64) = true := by
          simp only [contByte, decide_eq_true_eq]
          omega
        have hc3 : contByte (0x80 + c.toNat % 64) = true := by
          simp only [contByte, decide_eq_true_eq]
          omega
        rw [hc1, hc2, hc3]
        simp only [Bool.and_self, if_true]
        have harith : (0xF0 + c.toNat / 262144 - 0xF0) * 262144
            + (0x80 + c.toNat / 4096 % 64 - 0x80) * 4096
            + (0x80 + c.toNat / 64 % 64 - 0x80) * 64
            + (0x80 + c.toNat % 64 - 0x80) = c.toNat := by
          omega
        rw [harith, hofn]

theorem utf8DecodeFuel_encode (p : Bool) :
    ∀ (cs : List Char) (n : Nat), cs.length ≤ n → utf8DecodeFuel p n (utf8Encode cs) = cs
  | [], 0, _ => rfl
  | [], n + 1, _ => by
    simp only [utf8Encode, List.map_nil, List.flatten_nil, utf8DecodeFuel, utf8Step]
  | c :: cs, n + 1, h => by
    have henc : utf8Encode (c :: cs) = utf8EncodeChar c ++ utf8Encode cs := by
      simp [utf8Encode]
    have hstep := utf8Step_encodeChar c (utf8Encode cs)
    rw [henc]
    simp only [utf8DecodeFuel, hstep]
    rw [utf8DecodeFuel_encode p cs n (by simp only [List.length_cons] at h; omega)]

theorem one_le_length_encodeChar (c : Char) : 1 ≤ (utf8EncodeChar c).length := by
  simp only [utf8EncodeChar]
  split
  · simp
  · split
    · simp
    · split <;> simp

theorem length_le_utf8Encode (cs : List Char) : cs.length ≤ (utf8Encode cs).length := by
  induction cs with
  | nil => simp [utf8Encode]
  | cons c cs ih =>
    have henc : utf8Encode (c :: cs) = utf8EncodeChar c ++ utf8Encode cs := by
      simp [utf8Encode]
    rw [henc]
    simp only [List.length_append, List.length_cons]
    have h1 := one_le_length_encodeChar c
    omega

/-- A byte that can never begin a valid UTF-8 sequence (a stray
continuation byte, an overlong two-byte lead, or a lead above 0xF4) is
dropped by one decoding step. -/
theorem utf8Step_invalid (b : Nat) (bs : List Nat)
    (h : (0x80 ≤ b ∧ b ≤ 0xC1) ∨ 0xF5 ≤ b) : utf8Step (b :: bs) = Utf8Step.bad bs := by
  simp only [utf8Step]
  rcases h with h | h
  · rw [if_neg (by omega), if_pos (by omega)]
  · rw [if_neg (by omega), if_neg (by omega), if_neg (by omega), if_neg (by omega),
      if_neg (by omega)]

theorem utf8DecodeIgnore_cons_invalid (b : Nat) (bs : List Nat)
    (h : (0x80 ≤ b ∧ b ≤ 0xC1) ∨ 0xF5 ≤ b) :
    utf8DecodeIgnore (b :: bs) = utf8DecodeIgnore bs := by
  rw [utf8DecodeIgnore, utf8DecodeIgnore]
  simp only [List.length_cons]
  rw [utf8DecodeFuel]
  rw [utf8Step_invalid b bs h]
  simp

/-- Claim C9 (amended): the sanitizer's decoding step is total and
error-tolerant, but invalid bytes are DROPPED (`errors="ignore"`), not
replaced: the decode function recovers every validly encoded text exactly
and skips bytes that can never begin a valid sequence, and the sanitizer
pipeline applies the two rewrite rules to this decoded text before
re-encoding. -/
theorem C9_decode_total_tolerant :
    (∀ cs : List Char, utf8DecodeIgnore (utf8Encode cs) = cs) ∧
    (∀ (b : Nat) (bs : List Nat),
        (0x80 ≤ b ∧ b ≤ 0xC1) ∨ 0xF5 ≤ b →
        utf8DecodeIgnore (b :: bs) = utf8DecodeIgnore bs) ∧
    (∀ bs : List Nat, sanitizeBytes bs = utf8Encode (sanitizeText (utf8DecodeIgnore bs))) :=
  ⟨fun cs => utf8DecodeFuel_encode false cs _ (length_le_utf8Encode cs),
   utf8DecodeIgnore_cons_invalid,
   fun _ => rfl⟩

theorem C9_decode_total_tolerant_witness :
    utf8DecodeIgnore [255, 97] = [('a')] :=
  (C9_decode_total_tolerant.2.1 255 [97] (by omega)).trans (by rfl)

/-- Claim C9 is false in one point as stated: the source decodes with
`errors="ignore"`, which DROPS an invalid byte, whereas the spec says
invalid byte sequences are "replaced"; on the body `0xFF 'a'` the code
decodes to "a" while replacement decoding yields the substitution
character followed by "a". -/
theorem C9_counterexample :
    utf8DecodeIgnore [255, 97] = [('a')] ∧
    specDecodeReplace [255, 97] = [Char.ofNat 0xFFFD, ('a')] ∧
    utf8DecodeIgnore [255, 97] ≠ specDecodeReplace [255, 97] := by
  refine ⟨rfl, rfl, ?_⟩
  intro h
  exact absurd h (by decide)

end Entregable3
